import Mathlib

/-!
Verification development for `src/tools/simpy/inventory_control.py`:
a single-product (s, S) inventory-control simulation over a fixed
365-day horizon with stochastic daily demand and stochastic lead times,
returning aggregated holding / ordering / stockout costs.

The Python day loop is embedded as explicit sub-step functions
(`arrivalStep`, `demandStep`, `holdingStep`, `reorderStep`) over a state
record mirroring the script's mutable variables (`inventory["level"]`,
`on_order`, `arrival_event`, and the three cost accumulators).  Floats in
the source only ever hold small integer multiples of 1.0, 20.0 and 5.0,
all exactly representable, so costs are embedded as rationals.

Randomness: the script consumes the process-wide `random` module stream
(seeded with 1) through `random.random() < 0.5` (ten draws per demand
sample) and `random.randint(2, 5)` (one draw per placed order).  We model
the module state as an infinite stream of naturals with a cursor; a
`random.random() < 0.5` outcome is the parity of the next stream element
and a `randint(a, b)` outcome is `a + next % (b - a + 1)`.  Every
realizable sequence of outcomes corresponds to some stream, so properties
of the form "in every run" are proved for every stream.

SimPy semantics used by the embedding: in SimPy (3.x and 4.x alike),
`Timeout.__init__` assigns `self._value = value` (default `None`) before
scheduling itself, and `Event.triggered` returns `self._value is not
PENDING`; hence a `Timeout` is already triggered the moment
`env.timeout(delay)` creates it, independently of the simulation clock and
of its scheduled time.  The embedding records this fact as
`timeoutTriggered` (constantly `true`) while keeping the scheduled arrival
time in the state so that the scheduled-versus-actual arrival day can be
compared.
-/

namespace InventoryControl

/-- Horizon: `days = 365` in `run_simulation`. -/
def days : ℕ := 365

/-- Average daily demand: `demand_mean = 5`. -/
def demand_mean : ℕ := 5

/-- Minimum lead time: `lead_time_min = 2`. -/
def lead_time_min : ℕ := 2

/-- Maximum lead time: `lead_time_max = 5`. -/
def lead_time_max : ℕ := 5

/-- Holding cost per unit per day: `holding_cost = 1.0`. -/
def holding_cost : ℚ := 1

/-- Fixed cost per placed order: `order_cost = 20.0`. -/
def order_cost : ℚ := 20

/-- Stockout penalty per unit short: `stockout_cost = 5.0`. -/
def stockout_cost : ℚ := 5

/-- Model of the process-wide `random` module state after seeding: an
infinite stream of entropy values together with a cursor giving the next
position to consume.  Each call to `random.random()` or `random.randint`
consumes one position, so draws made later in the run depend on how many
draws happened before them, exactly as with the real module state. -/
structure Rng where
  stream : ℕ → ℕ
  pos : ℕ

/-- Outcome of one `random.random() < 0.5` test (a fair-coin draw for the
uniform distribution on `[0, 1)`), advancing the module state. -/
def Rng.bernoulli (g : Rng) : Bool × Rng :=
  (g.stream g.pos % 2 == 1, { g with pos := g.pos + 1 })

/-- Outcome of `random.randint(a, b)`: an integer in `[a, b]` (for
`a ≤ b`), advancing the module state. -/
def Rng.randint (g : Rng) (a b : ℕ) : ℕ × Rng :=
  (a + g.stream g.pos % (b - a + 1), { g with pos := g.pos + 1 })

/-- Sum of `n` Bernoulli(1/2) indicator draws, consumed sequentially. -/
def bernoulliSum : ℕ → Rng → ℕ × Rng
  | 0, g => (0, g)
  | n + 1, g =>
      let b := g.bernoulli
      let k := bernoulliSum n b.2
      ((if b.1 then 1 else 0) + k.1, k.2)

/-- Embedding of `generate_demand(mean)`:
`sum(1 for _ in range(mean * 2) if random.random() < 0.5)`. -/
def generate_demand (mean : ℕ) (g : Rng) : ℕ × Rng :=
  bernoulliSum (mean * 2) g

/-- The mutable state of one run: `inventory["level"]`, the
`inventory_process` locals `on_order` and `arrival_event` (recorded as the
pending timeout's scheduled trigger time, if any), and the three cost
accumulators of `cost`. -/
structure SimState where
  level : ℤ
  on_order : ℤ
  arrival : Option ℕ
  holding : ℚ
  ordering : ℚ
  stockout : ℚ
  deriving Repr, DecidableEq

/-- SimPy `Timeout.triggered` as a function of the current simulation time
and the timeout's scheduled time: constantly `true`, because
`Timeout.__init__` sets `self._value` before scheduling and
`Event.triggered` only tests `self._value is not PENDING`. -/
def timeoutTriggered (_now _sched : ℕ) : Bool := true

/-- Day-loop step 1 (`inventory_process`): if `arrival_event and
arrival_event.triggered`, add the outstanding quantity to the level and
clear `on_order` and `arrival_event`. -/
def arrivalStep (now : ℕ) (st : SimState) : SimState :=
  match st.arrival with
  | some sched =>
      if timeoutTriggered now sched then
        { st with level := st.level + st.on_order, on_order := 0, arrival := none }
      else st
  | none => st

/-- Day-loop step 2: demand realization.  If the demand fits, subtract it
from the level; otherwise zero the level and charge the shortage at
`stockout_cost` per unit. -/
def demandStep (st : SimState) (g : Rng) : SimState × Rng :=
  let d := generate_demand demand_mean g
  if (d.1 : ℤ) ≤ st.level then
    ({ st with level := st.level - (d.1 : ℤ) }, d.2)
  else
    ({ st with level := 0,
               stockout := st.stockout + (((d.1 : ℤ) - st.level : ℤ) : ℚ) * stockout_cost },
     d.2)

/-- Day-loop step 3: holding cost accrual on the post-demand level. -/
def holdingStep (st : SimState) : SimState :=
  { st with holding := st.holding + (st.level : ℚ) * holding_cost }

/-- Day-loop step 4: the (s, S) reorder decision.  If the level is at or
below `s` and `on_order == 0`, place an order of size `S - level`, charge
the fixed ordering cost, sample a lead time with `random.randint` and
schedule the arrival timeout at `now + delay`. -/
def reorderStep (s S : ℤ) (now : ℕ) (st : SimState) (g : Rng) : SimState × Rng :=
  if st.level ≤ s ∧ st.on_order = 0 then
    let dr := g.randint lead_time_min lead_time_max
    ({ st with on_order := S - st.level,
               ordering := st.ordering + order_cost,
               arrival := some (now + dr.1) },
     dr.2)
  else (st, g)

/-- One full iteration of `for day in range(days)` at day `now`: arrival
check, then demand, then holding cost, then the reorder decision. -/
def dayStep (s S : ℤ) (now : ℕ) (x : SimState × Rng) : SimState × Rng :=
  let st1 := arrivalStep now x.1
  let y := demandStep st1 x.2
  reorderStep s S now (holdingStep y.1) y.2

/-- Initial state of a run: `inventory = {"level": S}`, zero costs, no
outstanding order. -/
def initState (S : ℤ) : SimState :=
  { level := S, on_order := 0, arrival := none,
    holding := 0, ordering := 0, stockout := 0 }

/-- State (and module state) after the first `n` iterations of the day
loop; iteration `n` runs at simulation time `n`. -/
def afterDays (s S : ℤ) (g : Rng) : ℕ → SimState × Rng
  | 0 => (initState S, g)
  | n + 1 => dayStep s S n (afterDays s S g n)

/-- The state just before the reorder decision of day `n`: the start-of-day
state after arrival processing, demand consumption and holding accrual. -/
def preReorder (s S : ℤ) (g : Rng) (n : ℕ) : SimState × Rng :=
  let x := afterDays s S g n
  let y := demandStep (arrivalStep n x.1) x.2
  (holdingStep y.1, y.2)

/-- The dictionary returned by `run_simulation`. -/
structure SimulationResult where
  total_cost : ℚ
  holding_cost : ℚ
  ordering_cost : ℚ
  stockout_cost : ℚ
  ending_inventory : ℤ
  deriving Repr, DecidableEq

/-- Final-output construction of `run_simulation` from the final state. -/
def mkResult (st : SimState) : SimulationResult :=
  { total_cost := st.holding + st.ordering + st.stockout
    holding_cost := st.holding
    ordering_cost := st.ordering
    stockout_cost := st.stockout
    ending_inventory := st.level }

/-- Embedding of `run_simulation(s, S)` as a function of the post-seeding
random stream: run the day loop for the full horizon and build the result
dictionary. -/
def run_simulation (s S : ℤ) (g : Rng) : SimulationResult :=
  mkResult (afterDays s S g days).1

/-- Error-aware variant of `random.randint(a, b)`: CPython raises
`ValueError: empty range for randrange()` when `a > b`. -/
def Rng.randintE (g : Rng) (a b : ℕ) : Except String (ℕ × Rng) :=
  if b < a then Except.error "ValueError: empty range for randrange"
  else Except.ok (g.randint a b)

/-- The guard SimPy's `Timeout.__init__` performs on its delay: it raises
`ValueError` when the delay is negative. -/
def timeoutCheck (delay : ℤ) : Except String Unit :=
  if delay < 0 then Except.error "ValueError: Negative delay"
  else Except.ok ()

/-- Reorder decision with the runtime error conditions of its two library
calls (`random.randint` and `env.timeout`) made explicit. -/
def reorderStepE (s S : ℤ) (now : ℕ) (st : SimState) (g : Rng) :
    Except String (SimState × Rng) :=
  if st.level ≤ s ∧ st.on_order = 0 then
    (g.randintE lead_time_min lead_time_max).bind fun dr =>
      (timeoutCheck (dr.1 : ℤ)).map fun _ =>
        ({ st with on_order := S - st.level,
                   ordering := st.ordering + order_cost,
                   arrival := some (now + dr.1) },
         dr.2)
  else Except.ok (st, g)

/-- The smallest magnitude at which CPython's int-to-float conversion
raises `OverflowError`: doubles reach (2^53 - 1) * 2^971 = 2^1024 - 2^971,
and round-to-nearest-even sends every integer of magnitude at least the
midpoint 2^1024 - 2^970 to the out-of-range 2^1024. -/
def floatConvThreshold : ℕ := 2 ^ 1024 - 2 ^ 970

/-- The int-to-float conversion performed when a Python `int` meets a
`float` in `int * float`: raises `OverflowError` when the magnitude
reaches `floatConvThreshold`. -/
def floatCheck (n : ℤ) : Except String Unit :=
  if n.natAbs < floatConvThreshold then Except.ok ()
  else Except.error "OverflowError: int too large to convert to float"

/-- The error message carried by a failed computation, if any. -/
def errorOf {α : Type} : Except String α → Option String
  | Except.error e => some e
  | Except.ok _ => none

/-- Demand realization with the error condition of
`shortage * stockout_cost` made explicit: in the shortage branch the
integer `shortage` is converted to float and can raise `OverflowError`. -/
def demandStepE (st : SimState) (g : Rng) : Except String (SimState × Rng) :=
  let d := generate_demand demand_mean g
  if (d.1 : ℤ) ≤ st.level then
    Except.ok ({ st with level := st.level - (d.1 : ℤ) }, d.2)
  else
    (floatCheck ((d.1 : ℤ) - st.level)).map fun _ =>
      ({ st with level := 0,
                 stockout := st.stockout + (((d.1 : ℤ) - st.level : ℤ) : ℚ) * stockout_cost },
       d.2)

/-- Holding accrual with the error condition of
`inventory["level"] * holding_cost` made explicit: the integer level is
converted to float and can raise `OverflowError`. -/
def holdingStepE (st : SimState) : Except String SimState :=
  (floatCheck st.level).map fun _ =>
    { st with holding := st.holding + (st.level : ℚ) * holding_cost }

/-- One day-loop iteration with explicit error propagation.  Three places
can raise: the int-to-float conversion of the shortage in the stockout
accrual, the int-to-float conversion of the level in the holding accrual,
and the library calls of the reorder step. -/
def dayStepE (s S : ℤ) (now : ℕ) (x : SimState × Rng) :
    Except String (SimState × Rng) :=
  let st1 := arrivalStep now x.1
  (demandStepE st1 x.2).bind fun y =>
    (holdingStepE y.1).bind fun st3 =>
      reorderStepE s S now st3 y.2

/-- The day loop with explicit error propagation. -/
def afterDaysE (s S : ℤ) (g : Rng) : ℕ → Except String (SimState × Rng)
  | 0 => Except.ok (initState S, g)
  | n + 1 => (afterDaysE s S g n).bind (dayStepE s S n)

/-- Embedding of `run_simulation` with explicit error propagation. -/
def run_simulationE (s S : ℤ) (g : Rng) : Except String SimulationResult :=
  (afterDaysE s S g days).map fun x => mkResult x.1

/-- Stand-in for the Mersenne Twister output stream installed by
`random.seed(n)`: the development never relies on the particular values,
only on the stream being a fixed function of the seed. -/
def seedStream (n : ℤ) : ℕ → ℕ := fun k => n.natAbs + k

/-- The process-wide `random` module state right after `random.seed(n)`. -/
def pySeed (n : ℤ) : Rng := ⟨seedStream n, 0⟩

/-- Embedding of `run_simulation` together with the process-wide RNG
state: the call receives the module state left behind by earlier calls and
returns the state it leaves.  The body fixes `seed = 1` and executes
`random.seed(seed)` before the day loop, so the incoming state is
replaced. -/
def run_simulation_global (_g : Rng) (s S : ℤ) : SimulationResult × Rng :=
  let g1 := pySeed 1
  let x := afterDays s S g1 days
  (mkResult x.1, x.2)

/-- The module stream whose draws are all zero: every `random.random()`
lands in `[0, 0.5)` and every `randint(a, b)` returns `a`. -/
def zeroRng : Rng := ⟨fun _ => 0, 0⟩

/-- A concrete stream whose day-0 demand draws give demand 1 (first trial
succeeds, the other nine fail) and whose first `randint(2, 5)` draw gives
lead time 4. -/
def sigStream : ℕ → ℕ := fun n => if n = 0 then 1 else if n = 10 then 2 else 0

/-- The module state holding `sigStream` at position 0. -/
def sigRng : Rng := ⟨sigStream, 0⟩

/-- A module state that replays a given vector of ten coin outcomes, used
to average `generate_demand` over all equally likely outcome vectors. -/
def bitsRng (f : Fin 10 → Bool) : Rng :=
  ⟨fun i => if h : i < 10 then (if f ⟨i, h⟩ then 1 else 0) else 0, 0⟩

/-- The demand sample produced from a given vector of ten coin outcomes. -/
def demandOfBits (f : Fin 10 → Bool) : ℕ :=
  (generate_demand demand_mean (bitsRng f)).1

/-- The non-negativity invariant of a state under an order-up-to level
`S`: level and outstanding quantity are non-negative and together never
exceed `S`. -/
def InvNN (S : ℤ) (st : SimState) : Prop :=
  0 ≤ st.level ∧ 0 ≤ st.on_order ∧ st.level + st.on_order ≤ S

theorem arrivalStep_arrival (now : ℕ) (st : SimState) :
    (arrivalStep now st).arrival = none := by
  unfold arrivalStep
  cases h : st.arrival <;> simp [timeoutTriggered]
  exact h

theorem arrivalStep_on_order (now : ℕ) (st : SimState)
    (h : st.arrival = none → st.on_order = 0) :
    (arrivalStep now st).on_order = 0 := by
  unfold arrivalStep
  cases hh : st.arrival <;> simp [timeoutTriggered]
  exact h hh

theorem arrivalStep_holding (now : ℕ) (st : SimState) :
    (arrivalStep now st).holding = st.holding := by
  unfold arrivalStep
  cases hh : st.arrival <;> simp [timeoutTriggered]

theorem arrivalStep_ordering (now : ℕ) (st : SimState) :
    (arrivalStep now st).ordering = st.ordering := by
  unfold arrivalStep
  cases hh : st.arrival <;> simp [timeoutTriggered]

theorem arrivalStep_stockout (now : ℕ) (st : SimState) :
    (arrivalStep now st).stockout = st.stockout := by
  unfold arrivalStep
  cases hh : st.arrival <;> simp [timeoutTriggered]

theorem demandStep_level_eq (st : SimState) (g : Rng) :
    (demandStep st g).1.level =
      if ((generate_demand demand_mean g).1 : ℤ) ≤ st.level
      then st.level - ((generate_demand demand_mean g).1 : ℤ) else 0 := by
  unfold demandStep
  dsimp only
  split <;> rfl

theorem demandStep_on_order (st : SimState) (g : Rng) :
    (demandStep st g).1.on_order = st.on_order := by
  unfold demandStep
  dsimp only
  split <;> rfl

theorem demandStep_arrival (st : SimState) (g : Rng) :
    (demandStep st g).1.arrival = st.arrival := by
  unfold demandStep
  dsimp only
  split <;> rfl

theorem demandStep_holding (st : SimState) (g : Rng) :
    (demandStep st g).1.holding = st.holding := by
  unfold demandStep
  dsimp only
  split <;> rfl

theorem demandStep_ordering (st : SimState) (g : Rng) :
    (demandStep st g).1.ordering = st.ordering := by
  unfold demandStep
  dsimp only
  split <;> rfl

theorem demandStep_stockout_mono (st : SimState) (g : Rng) :
    st.stockout ≤ (demandStep st g).1.stockout := by
  unfold demandStep
  dsimp only
  split
  · exact le_refl _
  · rename_i h
    have h1 : (0 : ℤ) ≤ ((generate_demand demand_mean g).1 : ℤ) - st.level := by omega
    have h2 : (0 : ℚ) ≤ ((((generate_demand demand_mean g).1 : ℤ) - st.level : ℤ) : ℚ) := by
      exact_mod_cast h1
    have h3 : (0 : ℚ) ≤ ((((generate_demand demand_mean g).1 : ℤ) - st.level : ℤ) : ℚ) *
        stockout_cost := by
      apply mul_nonneg h2
      unfold stockout_cost
      norm_num
    simp only []
    linarith

theorem demandStep_level_nonneg (st : SimState) (g : Rng) :
    0 ≤ (demandStep st g).1.level := by
  rw [demandStep_level_eq]
  split <;> omega

theorem demandStep_level_le (st : SimState) (g : Rng) (h : 0 ≤ st.level) :
    (demandStep st g).1.level ≤ st.level := by
  rw [demandStep_level_eq]
  split <;> omega

theorem holdingStep_level (st : SimState) : (holdingStep st).level = st.level := rfl

theorem holdingStep_on_order (st : SimState) :
    (holdingStep st).on_order = st.on_order := rfl

theorem holdingStep_arrival (st : SimState) :
    (holdingStep st).arrival = st.arrival := rfl

theorem holdingStep_ordering (st : SimState) :
    (holdingStep st).ordering = st.ordering := rfl

theorem holdingStep_stockout (st : SimState) :
    (holdingStep st).stockout = st.stockout := rfl

theorem reorderStep_level (s S : ℤ) (now : ℕ) (st : SimState) (g : Rng) :
    (reorderStep s S now st g).1.level = st.level := by
  unfold reorderStep
  split <;> rfl

theorem reorderStep_holding (s S : ℤ) (now : ℕ) (st : SimState) (g : Rng) :
    (reorderStep s S now st g).1.holding = st.holding := by
  unfold reorderStep
  split <;> rfl

theorem reorderStep_stockout (s S : ℤ) (now : ℕ) (st : SimState) (g : Rng) :
    (reorderStep s S now st g).1.stockout = st.stockout := by
  unfold reorderStep
  split <;> rfl

theorem reorderStep_ordering_mono (s S : ℤ) (now : ℕ) (st : SimState) (g : Rng) :
    st.ordering ≤ (reorderStep s S now st g).1.ordering := by
  unfold reorderStep
  split
  · simp only []
    unfold order_cost
    linarith
  · exact le_refl _

theorem afterDays_succ (s S : ℤ) (g : Rng) (n : ℕ) :
    afterDays s S g (n + 1) =
      reorderStep s S n (preReorder s S g n).1 (preReorder s S g n).2 := rfl

theorem dayStep_level_nonneg (s S : ℤ) (now : ℕ) (x : SimState × Rng) :
    0 ≤ (dayStep s S now x).1.level := by
  unfold dayStep
  dsimp only
  rw [reorderStep_level, holdingStep_level]
  exact demandStep_level_nonneg _ _

theorem dayStep_holding_mono (s S : ℤ) (now : ℕ) (x : SimState × Rng) :
    x.1.holding ≤ (dayStep s S now x).1.holding := by
  unfold dayStep
  dsimp only
  rw [reorderStep_holding]
  unfold holdingStep
  dsimp only
  rw [demandStep_holding, arrivalStep_holding]
  have h1 : (0 : ℚ) ≤ ((demandStep (arrivalStep now x.1) x.2).1.level : ℚ) := by
    exact_mod_cast demandStep_level_nonneg _ _
  have h2 : (0 : ℚ) ≤ ((demandStep (arrivalStep now x.1) x.2).1.level : ℚ) * holding_cost := by
    apply mul_nonneg h1
    unfold holding_cost
    norm_num
  linarith

theorem dayStep_ordering_mono (s S : ℤ) (now : ℕ) (x : SimState × Rng) :
    x.1.ordering ≤ (dayStep s S now x).1.ordering := by
  unfold dayStep
  dsimp only
  calc x.1.ordering = (holdingStep (demandStep (arrivalStep now x.1) x.2).1).ordering := by
        rw [holdingStep_ordering, demandStep_ordering, arrivalStep_ordering]
    _ ≤ _ := reorderStep_ordering_mono _ _ _ _ _

theorem dayStep_stockout_mono (s S : ℤ) (now : ℕ) (x : SimState × Rng) :
    x.1.stockout ≤ (dayStep s S now x).1.stockout := by
  unfold dayStep
  dsimp only
  rw [reorderStep_stockout, holdingStep_stockout]
  calc x.1.stockout = (arrivalStep now x.1).stockout := (arrivalStep_stockout _ _).symm
    _ ≤ _ := demandStep_stockout_mono _ _

theorem afterDays_costs_nonneg (s S : ℤ) (g : Rng) (n : ℕ) :
    0 ≤ (afterDays s S g n).1.holding ∧ 0 ≤ (afterDays s S g n).1.ordering ∧
      0 ≤ (afterDays s S g n).1.stockout := by
  induction n with
  | zero => exact ⟨le_refl 0, le_refl 0, le_refl 0⟩
  | succ n ih =>
      have hh := dayStep_holding_mono s S n (afterDays s S g n)
      have ho := dayStep_ordering_mono s S n (afterDays s S g n)
      have hs := dayStep_stockout_mono s S n (afterDays s S g n)
      have he : afterDays s S g (n + 1) = dayStep s S n (afterDays s S g n) := rfl
      rw [he]
      exact ⟨le_trans ih.1 hh, le_trans ih.2.1 ho, le_trans ih.2.2 hs⟩

theorem afterDays_on_order_of_arrival (s S : ℤ) (g : Rng) (n : ℕ) :
    (afterDays s S g n).1.arrival = none → (afterDays s S g n).1.on_order = 0 := by
  induction n with
  | zero => intro _; rfl
  | succ n ih =>
      rw [afterDays_succ]
      unfold reorderStep
      split
      · dsimp only
        intro hcontra
        exact absurd hcontra (by simp)
      · intro _
        show (preReorder s S g n).1.on_order = 0
        unfold preReorder
        dsimp only
        rw [holdingStep_on_order, demandStep_on_order]
        exact arrivalStep_on_order n _ ih

theorem preReorder_clear (s S : ℤ) (g : Rng) (n : ℕ) :
    (preReorder s S g n).1.arrival = none ∧ (preReorder s S g n).1.on_order = 0 := by
  constructor
  · show (preReorder s S g n).1.arrival = none
    unfold preReorder
    dsimp only
    rw [holdingStep_arrival, demandStep_arrival]
    exact arrivalStep_arrival _ _
  · show (preReorder s S g n).1.on_order = 0
    unfold preReorder
    dsimp only
    rw [holdingStep_on_order, demandStep_on_order]
    exact arrivalStep_on_order n _ (afterDays_on_order_of_arrival s S g n)

theorem arrivalStep_inv (S : ℤ) (now : ℕ) (st : SimState) (h : InvNN S st) :
    InvNN S (arrivalStep now st) := by
  obtain ⟨h1, h2, h3⟩ := h
  unfold InvNN
  unfold arrivalStep
  cases hh : st.arrival <;> simp [timeoutTriggered] <;> omega

theorem demandStep_inv (S : ℤ) (st : SimState) (g : Rng) (h : InvNN S st) :
    InvNN S (demandStep st g).1 := by
  obtain ⟨h1, h2, h3⟩ := h
  refine ⟨demandStep_level_nonneg st g, ?_, ?_⟩
  · rw [demandStep_on_order]
    exact h2
  · rw [demandStep_on_order]
    have := demandStep_level_le st g h1
    omega

theorem holdingStep_inv (S : ℤ) (st : SimState) (h : InvNN S st) :
    InvNN S (holdingStep st) := h

theorem reorderStep_inv (s S : ℤ) (now : ℕ) (st : SimState) (g : Rng) (h : InvNN S st) :
    InvNN S (reorderStep s S now st g).1 := by
  obtain ⟨h1, h2, h3⟩ := h
  unfold InvNN
  unfold reorderStep
  split
  · rename_i hg
    dsimp only
    refine ⟨h1, ?_, ?_⟩ <;> omega
  · exact ⟨h1, h2, h3⟩

theorem afterDays_inv (s S : ℤ) (hS : 0 ≤ S) (g : Rng) (n : ℕ) :
    InvNN S (afterDays s S g n).1 := by
  induction n with
  | zero => exact ⟨hS, le_refl 0, by simp [initState, afterDays]⟩
  | succ n ih =>
      have he : afterDays s S g (n + 1) = dayStep s S n (afterDays s S g n) := rfl
      rw [he]
      unfold dayStep
      dsimp only
      exact reorderStep_inv _ _ _ _ _ (holdingStep_inv _ _
        (demandStep_inv _ _ _ (arrivalStep_inv _ _ _ ih)))

theorem preReorder_inv (s S : ℤ) (hS : 0 ≤ S) (g : Rng) (n : ℕ) :
    InvNN S (preReorder s S g n).1 := by
  show InvNN S (preReorder s S g n).1
  unfold preReorder
  dsimp only
  exact holdingStep_inv _ _ (demandStep_inv _ _ _
    (arrivalStep_inv _ _ _ (afterDays_inv s S hS g n)))

theorem reorderStepE_ok (s S : ℤ) (now : ℕ) (st : SimState) (g : Rng) :
    reorderStepE s S now st g = Except.ok (reorderStep s S now st g) := by
  unfold reorderStepE reorderStep Rng.randintE timeoutCheck
  split
  · have h1 : ¬ lead_time_max < lead_time_min := by
      unfold lead_time_min lead_time_max
      omega
    have h2 : ¬ (((g.randint lead_time_min lead_time_max).1 : ℤ) < 0) := by
      have := Int.natCast_nonneg ((g.randint lead_time_min lead_time_max).1)
      omega
    rw [if_neg h1]
    dsimp only [Except.bind]
    rw [if_neg h2]
    rfl
  · rfl

theorem bernoulliSum_le (n : ℕ) : ∀ g : Rng, (bernoulliSum n g).1 ≤ n := by
  induction n with
  | zero => intro g; exact Nat.le_refl 0
  | succ n ih =>
      intro g
      unfold bernoulliSum
      dsimp only
      have := ih (g.bernoulli).2
      split <;> omega

theorem arrivalStep_level_cases (now : ℕ) (st : SimState) :
    (st.arrival = none ∧ arrivalStep now st = st) ∨
    (arrivalStep now st).level = st.level + st.on_order := by
  unfold arrivalStep
  cases h : st.arrival
  · left
    exact ⟨rfl, rfl⟩
  · right
    simp [timeoutTriggered]

theorem afterDays_neg_S (s S : ℤ) (hS : S < 0) (g : Rng) (n : ℕ) :
    ((afterDays s S g n).1.level = 0 ∨ (afterDays s S g n).1.level = S) ∧
    ((afterDays s S g n).1.on_order = 0 ∨ (afterDays s S g n).1.on_order = S) ∧
    ((afterDays s S g n).1.level = S → (afterDays s S g n).1.on_order = 0) := by
  induction n with
  | zero => exact ⟨Or.inr rfl, Or.inl rfl, fun _ => rfl⟩
  | succ n ih =>
      have hJ := afterDays_on_order_of_arrival s S g n
      have hL1 : (arrivalStep n (afterDays s S g n).1).level = 0 ∨
          (arrivalStep n (afterDays s S g n).1).level = S := by
        rcases arrivalStep_level_cases n (afterDays s S g n).1 with ⟨hn, he⟩ | he
        · rw [he]
          exact ih.1
        · rw [he]
          rcases ih.1 with h1 | h1 <;> rcases ih.2.1 with h2 | h2
          · left; omega
          · right; omega
          · right; omega
          · have := ih.2.2 h1
            omega
      have hPl : (preReorder s S g n).1.level = 0 := by
        show (preReorder s S g n).1.level = 0
        unfold preReorder
        dsimp only
        rw [holdingStep_level, demandStep_level_eq]
        rcases hL1 with h | h <;> rw [h] <;> split <;> omega
      have hP0 : (preReorder s S g n).1.on_order = 0 := (preReorder_clear s S g n).2
      rw [afterDays_succ]
      unfold reorderStep
      split
      · dsimp only
        refine ⟨Or.inl hPl, Or.inr (by rw [hPl]; ring), fun hc => ?_⟩
        rw [hPl] at hc
        omega
      · exact ⟨Or.inl hPl, Or.inl hP0, fun _ => hP0⟩

theorem arrival_level_bound (s S : ℤ) (g : Rng) (n : ℕ) :
    (arrivalStep n (afterDays s S g n).1).level.natAbs ≤ S.natAbs := by
  rcases le_or_lt 0 S with hS | hS
  · obtain ⟨h1, h2, h3⟩ := afterDays_inv s S hS g n
    rcases arrivalStep_level_cases n (afterDays s S g n).1 with ⟨_, he⟩ | he <;> rw [he] <;>
      omega
  · have hZ := afterDays_neg_S s S hS g n
    have h3 := hZ.2.2
    rcases arrivalStep_level_cases n (afterDays s S g n).1 with ⟨hn, he⟩ | he <;> rw [he] <;>
      rcases hZ.1 with h1 | h1 <;> rcases hZ.2.1 with h2 | h2 <;> omega

theorem demandStepE_ok (st : SimState) (g : Rng)
    (h : st.level.natAbs + 10 < floatConvThreshold) :
    demandStepE st g = Except.ok (demandStep st g) := by
  have hd : (generate_demand demand_mean g).1 ≤ 10 := bernoulliSum_le (demand_mean * 2) g
  unfold demandStepE demandStep
  dsimp only
  split
  · rfl
  · rename_i hgt
    have hc : (((generate_demand demand_mean g).1 : ℤ) - st.level).natAbs <
        floatConvThreshold := by omega
    unfold floatCheck
    rw [if_pos hc]
    rfl

theorem holdingStepE_ok (st : SimState) (h : st.level.natAbs < floatConvThreshold) :
    holdingStepE st = Except.ok (holdingStep st) := by
  unfold holdingStepE holdingStep floatCheck
  rw [if_pos h]
  rfl

theorem dayStepE_ok (s S : ℤ) (now : ℕ) (x : SimState × Rng)
    (h : (arrivalStep now x.1).level.natAbs + 10 < floatConvThreshold) :
    dayStepE s S now x = Except.ok (dayStep s S now x) := by
  have hd : (generate_demand demand_mean x.2).1 ≤ 10 := bernoulliSum_le (demand_mean * 2) x.2
  have h2 : (demandStep (arrivalStep now x.1) x.2).1.level.natAbs < floatConvThreshold := by
    have hl := demandStep_level_eq (arrivalStep now x.1) x.2
    by_cases hc : ((generate_demand demand_mean x.2).1 : ℤ) ≤ (arrivalStep now x.1).level
    · rw [if_pos hc] at hl
      omega
    · rw [if_neg hc] at hl
      omega
  unfold dayStepE dayStep
  dsimp only
  rw [demandStepE_ok _ _ h]
  simp only [Except.bind]
  rw [holdingStepE_ok _ h2]
  simp only [Except.bind]
  rw [reorderStepE_ok]

theorem afterDaysE_ok (s S : ℤ) (hB : S.natAbs + 10 < floatConvThreshold) (g : Rng)
    (n : ℕ) :
    afterDaysE s S g n = Except.ok (afterDays s S g n) := by
  induction n with
  | zero => rfl
  | succ n ih =>
      have he : afterDaysE s S g (n + 1) = (afterDaysE s S g n).bind (dayStepE s S n) := rfl
      have hbnd : (arrivalStep n (afterDays s S g n).1).level.natAbs + 10 <
          floatConvThreshold := by
        have := arrival_level_bound s S g n
        omega
      rw [he, ih]
      show dayStepE s S n (afterDays s S g n) = _
      rw [dayStepE_ok s S n (afterDays s S g n) hbnd]
      rfl

theorem errorOf_bind {α β : Type} (x : Except String α) (f : α → Except String β)
    (e : String) (h : errorOf x = some e) : errorOf (x.bind f) = some e := by
  cases x
  · exact h
  · exact absurd h (by simp [errorOf])

theorem errorOf_map {α β : Type} (x : Except String α) (f : α → β) (e : String)
    (h : errorOf x = some e) : errorOf (Except.map f x) = some e := by
  cases x
  · exact h
  · exact absurd h (by simp [errorOf])

theorem demandStepE_fits (st : SimState) (g : Rng)
    (h : ((generate_demand demand_mean g).1 : ℤ) ≤ st.level) :
    demandStepE st g =
      Except.ok ({ st with level := st.level - ((generate_demand demand_mean g).1 : ℤ) },
        (generate_demand demand_mean g).2) := by
  unfold demandStepE
  dsimp only
  rw [if_pos h]

theorem holdingStepE_overflow (st : SimState)
    (h : floatConvThreshold ≤ st.level.natAbs) :
    holdingStepE st = Except.error "OverflowError: int too large to convert to float" := by
  unfold holdingStepE floatCheck
  rw [if_neg (by omega)]
  rfl

theorem dayStepE_overflow (s S : ℤ) (now : ℕ) (x : SimState × Rng)
    (h1 : ((generate_demand demand_mean x.2).1 : ℤ) ≤ (arrivalStep now x.1).level)
    (h2 : floatConvThreshold ≤
      ((arrivalStep now x.1).level - ((generate_demand demand_mean x.2).1 : ℤ)).natAbs) :
    dayStepE s S now x = Except.error "OverflowError: int too large to convert to float" := by
  unfold dayStepE
  dsimp only
  rw [demandStepE_fits _ _ h1]
  simp only [Except.bind]
  rw [holdingStepE_overflow _ h2]

theorem afterDaysE_zero (s S : ℤ) (g : Rng) :
    afterDaysE s S g 0 = Except.ok (initState S, g) := rfl

theorem afterDaysE_succ (s S : ℤ) (g : Rng) (n : ℕ) :
    afterDaysE s S g (n + 1) = (afterDaysE s S g n).bind (dayStepE s S n) := rfl

theorem afterDaysE_error_propagates (s S : ℤ) (g : Rng) (n : ℕ) (e : String)
    (h : errorOf (afterDaysE s S g n) = some e) :
    ∀ m : ℕ, n ≤ m → errorOf (afterDaysE s S g m) = some e := by
  intro m
  induction m with
  | zero =>
      intro hm
      have hn : n = 0 := Nat.le_zero.mp hm
      subst hn
      exact h
  | succ m ih =>
      intro hm
      by_cases hnm : n ≤ m
      · have hprev := ih hnm
        show errorOf ((afterDaysE s S g m).bind (dayStepE s S m)) = some e
        exact errorOf_bind _ _ _ hprev
      · have hn : n = m + 1 := by omega
        subst hn
        exact h

theorem ten_lt_floatConvThreshold : 10 < floatConvThreshold := by
  unfold floatConvThreshold
  have ha : (10 : ℕ) < 2 ^ 970 :=
    lt_of_lt_of_le (show (10 : ℕ) < 2 ^ 4 by norm_num)
      (Nat.pow_le_pow_right (by norm_num) (by norm_num))
  have h971 : (2 : ℕ) ^ 970 + 2 ^ 970 = 2 ^ 971 := by
    rw [pow_succ]
    ring
  have hb : (2 : ℕ) ^ 970 + 2 ^ 970 ≤ 2 ^ 1024 := by
    rw [h971]
    exact Nat.pow_le_pow_right (by norm_num) (by norm_num)
  have hc : 10 + 2 ^ 970 < 2 ^ 1024 :=
    lt_of_lt_of_le (Nat.add_lt_add_right ha _) hb
  exact Nat.lt_sub_of_add_lt hc

/-- C1: refuted by the code (code bug).  With (s, S) = (10, 10) and a
stream whose day-0 demand is 1 and whose sampled lead time is 4, the order
placed on day 0 is recorded with scheduled arrival day 0 + 4 = 4, yet the
arrival check of day 1 already adds the full quantity and clears the
order, because a SimPy timeout is triggered from the moment of its
creation: clearing occurs at day 1, strictly before the scheduled day
d + L = 4, contradicting the script's own documentation of a stochastic
lead time. -/
theorem order_cleared_before_scheduled_arrival :
    (afterDays 10 10 sigRng 1).1.arrival = some 4 ∧
    (afterDays 10 10 sigRng 1).1.on_order = 1 ∧
    (arrivalStep 1 (afterDays 10 10 sigRng 1).1).on_order = 0 ∧
    (arrivalStep 1 (afterDays 10 10 sigRng 1).1).arrival = none ∧
    (arrivalStep 1 (afterDays 10 10 sigRng 1).1).level =
      (afterDays 10 10 sigRng 1).1.level + 1 ∧
    (1 : ℕ) < 4 := by decide

/-- C2, counterexample: with (s, S) = (0, -1), on day 0 the reorder rule
places an order of quantity S - level = -1 < 0 (the code has no clamp), and
the day-1 arrival processing then drives the on-hand level to -1 < 0; the
initial level S = -1 is itself negative.  This refutes the claim as stated
for all integer parameters. -/
theorem negative_order_and_negative_level :
    (afterDays 0 (-1) zeroRng 1).1.on_order < 0 ∧
    (arrivalStep 1 (afterDays 0 (-1) zeroRng 1).1).level < 0 ∧
    (initState (-1)).level < 0 := by decide

/-- C2, amended: for every integer reorder point s and every order-up-to
level S ≥ 0, at every day boundary and at the pre-reorder point of every
day the on-hand level and the outstanding quantity are non-negative, and
whenever the reorder rule fires the placed quantity equals
max(S - on_hand_level, 0). -/
theorem nonneg_levels_and_clamped_orders (s S : ℤ) (hS : 0 ≤ S) (g : Rng) (n : ℕ) :
    0 ≤ (afterDays s S g n).1.level ∧ 0 ≤ (afterDays s S g n).1.on_order ∧
    0 ≤ (preReorder s S g n).1.level ∧
    ((preReorder s S g n).1.level ≤ s →
      (afterDays s S g (n + 1)).1.on_order =
        max (S - (preReorder s S g n).1.level) 0) := by
  have hA := afterDays_inv s S hS g n
  have hP := preReorder_inv s S hS g n
  have hC := preReorder_clear s S g n
  refine ⟨hA.1, hA.2.1, hP.1, fun hle => ?_⟩
  rw [afterDays_succ]
  unfold reorderStep
  rw [if_pos ⟨hle, hC.2⟩]
  dsimp only
  have hle2 : (preReorder s S g n).1.level ≤ S := by
    have h1 := hP.2.2
    have h2 := hC.2
    omega
  exact (max_eq_left (by omega)).symm

/-- Witness for the amended C2 at s = 0, S = 0, the all-zero stream and
day 0. -/
theorem nonneg_levels_and_clamped_orders_witness :
    0 ≤ (afterDays 0 0 zeroRng 0).1.level ∧ 0 ≤ (afterDays 0 0 zeroRng 0).1.on_order ∧
    0 ≤ (preReorder 0 0 zeroRng 0).1.level ∧
    ((preReorder 0 0 zeroRng 0).1.level ≤ 0 →
      (afterDays 0 0 zeroRng (0 + 1)).1.on_order =
        max (0 - (preReorder 0 0 zeroRng 0).1.level) 0) :=
  nonneg_levels_and_clamped_orders 0 0 (le_refl 0) zeroRng 0

/-- C3: for every pair of integer policy parameters and every random
stream, the returned `total_cost` equals exactly the sum of the returned
`holding_cost`, `ordering_cost` and `stockout_cost`. -/
theorem total_cost_decomposition (s S : ℤ) (g : Rng) :
    (run_simulation s S g).total_cost =
      (run_simulation s S g).holding_cost + (run_simulation s S g).ordering_cost +
      (run_simulation s S g).stockout_cost := rfl

/-- C4: within every simulated day, demand is consumed from the
post-arrival level (arrival processing strictly precedes demand), and the
day's holding total increases by exactly the post-demand, pre-reorder
level times `holding_cost`; the reorder decision leaves the level
unchanged, so the end-of-day level is that same post-demand level. -/
theorem holding_charged_on_post_demand_level (s S : ℤ) (g : Rng) (n : ℕ) :
    (afterDays s S g (n + 1)).1.holding =
      (afterDays s S g n).1.holding +
        ((if ((generate_demand demand_mean (afterDays s S g n).2).1 : ℤ) ≤
              (arrivalStep n (afterDays s S g n).1).level
          then (arrivalStep n (afterDays s S g n).1).level -
               ((generate_demand demand_mean (afterDays s S g n).2).1 : ℤ)
          else 0 : ℤ) : ℚ) * holding_cost ∧
    (afterDays s S g (n + 1)).1.level =
      (if ((generate_demand demand_mean (afterDays s S g n).2).1 : ℤ) ≤
            (arrivalStep n (afterDays s S g n).1).level
        then (arrivalStep n (afterDays s S g n).1).level -
             ((generate_demand demand_mean (afterDays s S g n).2).1 : ℤ)
        else 0) := by
  have he : afterDays s S g (n + 1) = dayStep s S n (afterDays s S g n) := rfl
  constructor
  · rw [he]
    unfold dayStep
    dsimp only
    rw [reorderStep_holding]
    unfold holdingStep
    dsimp only
    rw [demandStep_holding, arrivalStep_holding, demandStep_level_eq]
  · rw [he]
    unfold dayStep
    dsimp only
    rw [reorderStep_level, holdingStep_level, demandStep_level_eq]

/-- C5: at the reorder decision point of every day of every run there is
no outstanding order (the pending arrival event is absent and the
outstanding quantity is zero), so a new order is never placed while an
order is already outstanding and at most one order is outstanding at any
time. -/
theorem no_order_while_outstanding (s S : ℤ) (g : Rng) (n : ℕ) :
    (preReorder s S g n).1.arrival = none ∧ (preReorder s S g n).1.on_order = 0 :=
  preReorder_clear s S g n

/-- C6, counterexample: totality over all integers fails.  With
(s, S) = (0, 2^1100) the day-0 holding accrual multiplies the integer
level 2^1100 by the float `holding_cost`; the int-to-float conversion
overflows the double range (threshold 2^1024 - 2^970) and the run raises
`OverflowError` instead of returning a result. -/
theorem overflow_for_huge_S :
    errorOf (run_simulationE 0 (2 ^ 1100) zeroRng) =
      some "OverflowError: int too large to convert to float" := by
  have hthr : floatConvThreshold ≤ 2 ^ 1100 := by
    unfold floatConvThreshold
    exact le_trans (Nat.sub_le _ _) (Nat.pow_le_pow_right (by norm_num) (by norm_num))
  have hd0 : (generate_demand demand_mean zeroRng).1 = 0 := rfl
  have ha : arrivalStep 0 (initState (2 ^ 1100), zeroRng).1 = initState (2 ^ 1100) := rfl
  have h1 : ((generate_demand demand_mean zeroRng).1 : ℤ) ≤
      (arrivalStep 0 (initState (2 ^ 1100), zeroRng).1).level := by
    rw [ha, hd0]
    show ((0 : ℕ) : ℤ) ≤ (initState (2 ^ 1100)).level
    simp [initState]
  have h2 : floatConvThreshold ≤
      ((arrivalStep 0 (initState (2 ^ 1100), zeroRng).1).level -
        ((generate_demand demand_mean zeroRng).1 : ℤ)).natAbs := by
    rw [ha, hd0]
    simp only [initState, Nat.cast_zero, sub_zero]
    rw [Int.natAbs_pow]
    exact hthr
  have hday : dayStepE 0 (2 ^ 1100) 0 (initState (2 ^ 1100), zeroRng) =
      Except.error "OverflowError: int too large to convert to float" :=
    dayStepE_overflow 0 (2 ^ 1100) 0 (initState (2 ^ 1100), zeroRng) h1 h2
  have h3 : errorOf (afterDaysE 0 (2 ^ 1100) zeroRng 1) =
      some "OverflowError: int too large to convert to float" := by
    rw [afterDaysE_succ 0 (2 ^ 1100) zeroRng 0, afterDaysE_zero]
    simp only [Except.bind]
    rw [hday]
    rfl
  have h4 := afterDaysE_error_propagates 0 (2 ^ 1100) zeroRng 1 _ h3 days (by decide)
  show errorOf ((afterDaysE 0 (2 ^ 1100) zeroRng days).map fun x => mkResult x.1) = _
  exact errorOf_map _ _ _ h4

/-- C6, amended: `run_simulation` completes without error and returns a
full result for every integer pair (s, S) — including degenerate ones
(s >= S, negative values) — whenever |S| + 10 is below the int-to-float
overflow threshold 2^1024 - 2^970; every integer the loop converts to
float (post-demand levels and shortages) then stays within double range,
and the remaining library error conditions (empty `randint` range,
negative SimPy delay) never fire. -/
theorem run_simulation_ok_within_float_range (s S : ℤ)
    (hB : S.natAbs + 10 < floatConvThreshold) (g : Rng) :
    run_simulationE s S g = Except.ok (run_simulation s S g) := by
  unfold run_simulationE run_simulation
  rw [afterDaysE_ok s S hB g days]
  rfl

/-- Witness for the amended C6 at s = 0, S = 0 and the all-zero stream. -/
theorem run_simulation_ok_within_float_range_witness :
    run_simulationE 0 0 zeroRng = Except.ok (run_simulation 0 0 zeroRng) :=
  run_simulation_ok_within_float_range 0 0
    (by simpa using ten_lt_floatConvThreshold) zeroRng

/-- C7: every returned cost component is non-negative and the returned
ending inventory is a non-negative integer, for all integer policy
parameters and all random streams. -/
theorem result_nonnegative (s S : ℤ) (g : Rng) :
    0 ≤ (run_simulation s S g).holding_cost ∧
    0 ≤ (run_simulation s S g).ordering_cost ∧
    0 ≤ (run_simulation s S g).stockout_cost ∧
    0 ≤ (run_simulation s S g).ending_inventory := by
  have hc := afterDays_costs_nonneg s S g days
  have he : afterDays s S g days = dayStep s S 364 (afterDays s S g 364) := rfl
  refine ⟨hc.1, hc.2.1, hc.2.2, ?_⟩
  show 0 ≤ (afterDays s S g days).1.level
  rw [he]
  exact dayStep_level_nonneg _ _ _ _

/-- C8: the run seeds the process-wide random stream with the fixed seed 1
before the day loop, so two calls with the same (s, S) return identical
results regardless of the module state left behind by earlier calls. -/
theorem run_simulation_deterministic (g1 g2 : Rng) (s S : ℤ) :
    (run_simulation_global g1 s S).1 = (run_simulation_global g2 s S).1 ∧
    (run_simulation_global g1 s S).1 = run_simulation s S (pySeed 1) :=
  ⟨rfl, rfl⟩

set_option maxRecDepth 1000000 in
set_option maxHeartbeats 4000000 in
/-- C9: every demand sample is a non-negative integer (by type) bounded by
2 x mean_rate = 10, and the average of the sample over the 2^10 equally
likely vectors of fair-coin outcomes is exactly `demand_mean` = 5, i.e.
the sum over all outcome vectors equals `demand_mean * 2 ^ 10`. -/
theorem demand_bounded_and_fair_mean :
    (∀ g : Rng, (generate_demand demand_mean g).1 ≤ 2 * demand_mean) ∧
    (Finset.univ.sum fun f : Fin 10 → Bool => demandOfBits f) = demand_mean * 2 ^ 10 := by
  constructor
  · intro g
    have := bernoulliSum_le (demand_mean * 2) g
    unfold generate_demand
    omega
  · decide

/-- C10: a run starts with the on-hand level initialized to the order-up-to
level S (also when S ≤ 0), and the first day's demand operates directly on
that initial level: after day 0 the level is S minus the first demand
sample, clamped at zero. -/
theorem initial_inventory_is_order_up_to (s S : ℤ) (g : Rng) :
    (initState S).level = S ∧ afterDays s S g 0 = (initState S, g) ∧
    (afterDays s S g 1).1.level =
      (if ((generate_demand demand_mean g).1 : ℤ) ≤ S
        then S - ((generate_demand demand_mean g).1 : ℤ) else 0) := by
  refine ⟨rfl, rfl, ?_⟩
  have he : afterDays s S g 1 = dayStep s S 0 (initState S, g) := rfl
  rw [he]
  unfold dayStep
  dsimp only
  rw [reorderStep_level, holdingStep_level]
  have ha : arrivalStep 0 (initState S, g).1 = initState S := rfl
  rw [ha, demandStep_level_eq]
  rfl

end InventoryControl
